import Mathlib

/-!
Verification development for the `tmux-sessionizer` directory-to-session tool.

The Python source (`tmux-sessionizer.py`) is shallowly embedded here:

* POSIX paths (`pathlib.Path`) are modelled by `PyPath`: an absolute/relative
  flag plus the list of path components, mirroring pathlib's parsing (it drops
  empty components and `"."` at construction and keeps `".."`).
* The filesystem seen by the recursive walker `find_project_dirs` is modelled
  by the tree type `FSNode`.  Symbolic links are modelled as opaque leaves
  (the walker never follows them, and the model treats them as non-directories
  when probed, i.e. as dangling links).
* Every external process (fzf, each tmux subcommand) is an oracle function
  supplied through the `World` structure; the actions a run performs are
  returned as an explicit `Act` trace, and `print` calls become
  `Act.printed` entries.
* Python's `str` comparison (used by `sorted(..., key=str)`) is code-point
  lexicographic comparison, modelled by `pyStrLe` on the character lists.
-/

/-! ## String helpers (models of the Python `str` operations used) -/

/-- Checks whether the first list is an initial segment of the second. -/
def leadsWith {α : Type} [BEq α] : List α → List α → Bool
  | [], _ => true
  | _ :: _, [] => false
  | a :: as, b :: bs => a == b && leadsWith as bs

/-- Model of Python `str.startswith`. -/
def pyStartsWith (pre s : String) : Bool := leadsWith pre.data s.data

/-- Whitespace as stripped by Python `str.strip()` (the ASCII cases). -/
def isSpaceChar (c : Char) : Bool := c == ' ' || c == '\t' || c == '\n' || c == '\r'

/-- Model of Python `str.strip()`. -/
def pyStrip (s : String) : String :=
  String.mk (((s.data.dropWhile isSpaceChar).reverse.dropWhile isSpaceChar).reverse)

/-- Auxiliary accumulator-based splitter for `splitChar`. -/
def splitCharAux (c : Char) (cur : List Char) : List Char → List String
  | [] => [String.mk cur.reverse]
  | x :: xs =>
    if x = c then String.mk cur.reverse :: splitCharAux c [] xs
    else splitCharAux c (x :: cur) xs

/-- Model of Python `str.split(c)` for a one-character separator. -/
def splitChar (c : Char) (s : String) : List String := splitCharAux c [] s.data

/-- Finds the first occurrence of `c` and returns the text before and after it,
or `none` when `c` does not occur; models Python `c in s` / `s.split(c, 1)`. -/
def breakAtChar (c : Char) : List Char → Option (List Char × List Char)
  | [] => none
  | x :: xs =>
    if x = c then some ([], xs)
    else
      match breakAtChar c xs with
      | some (a, b) => some (x :: a, b)
      | none => none

/-- Model of Python `s.split(":", 1)` restricted to strings containing `":"`;
for a string without the separator it returns the whole string and `""`. -/
def splitOnceColon (s : String) : String × String :=
  match breakAtChar ':' s.data with
  | some (a, b) => (String.mk a, String.mk b)
  | none => (s, "")

/-- Joins strings with a separator (model of Python `sep.join`). -/
def pyJoinStr (sep : String) : List String → String
  | [] => ""
  | [x] => x
  | x :: xs => x ++ sep ++ pyJoinStr sep xs

/-- Code-point lexicographic order on character lists, as used by Python `<=`
on `str`. -/
def charListLe : List Char → List Char → Bool
  | [], _ => true
  | _ :: _, [] => false
  | a :: as, b :: bs => if a < b then true else if b < a then false else charListLe as bs

/-- Python string comparison `a <= b` (code-point lexicographic). -/
def pyStrLe (a b : String) : Bool := charListLe a.data b.data

/-! ## Paths (`pathlib.Path` model) -/

/-- Model of a `pathlib.PosixPath`: absolute flag plus components; pathlib
drops empty components and `"."` when parsing and keeps `".."`. -/
structure PyPath where
  absolute : Bool
  comps : List String
deriving DecidableEq, Repr

/-- Model of `pathlib.Path(s)` for a string `s`. -/
def parsePath (s : String) : PyPath :=
  { absolute := pyStartsWith "/" s
    comps := (splitChar '/' s).filter (fun x => !(x == "") && !(x == ".")) }

/-- Renders a `PyPath` the way `str(path)` does (an empty relative path prints
as `"."`). -/
def pathStr (p : PyPath) : String :=
  if p.absolute then "/" ++ pyJoinStr "/" p.comps
  else if p.comps.isEmpty then "." else pyJoinStr "/" p.comps

/-- Removes `".."` components by popping, the purely lexical part of
`Path.resolve()` (the model filesystem has no symbolic links to chase on the
string level). -/
def resolveComps (cs : List String) : List String :=
  cs.foldl (fun acc c => if c = ".." then acc.dropLast else acc ++ [c]) []

/-- Model of `Path.resolve()`: the result is absolute with `".."` removed. -/
def pyResolve (p : PyPath) : PyPath := { absolute := true, comps := resolveComps p.comps }

/-- Model of `parent / child` on paths: an absolute right operand replaces the
left one, as in pathlib. -/
def pyJoin (p q : PyPath) : PyPath :=
  if q.absolute then q else { absolute := p.absolute, comps := p.comps ++ q.comps }

/-- Model of `Path.relative_to`: defined exactly when the anchors agree and the
parent's components are an initial segment; raises `ValueError` (here: `none`)
otherwise. -/
def relative_to (p parent : PyPath) : Option PyPath :=
  if p.absolute = parent.absolute && leadsWith parent.comps p.comps then
    some { absolute := false, comps := p.comps.drop parent.comps.length }
  else none

/-- Model of `Path.name`: the final component, `""` for the root. -/
def pyName (p : PyPath) : String := p.comps.getLastD ""

/-- Model of `str(Path(p) / c)` for a single extra component `c`. -/
def pjoin (p c : String) : String := if p = "/" then p ++ c else p ++ "/" ++ c

/-! ## Filesystem trees and the Directory Walker (`find_project_dirs`) -/

/-- Filesystem node: plain file, symbolic link (opaque, never followed, never
a directory in this model), or directory with named children. -/
inductive FSNode where
  | file (name : String) : FSNode
  | symlink (name : String) : FSNode
  | dir (name : String) (children : List FSNode) : FSNode

/-- Base name of a node. -/
def nodeName : FSNode → String
  | .file n => n
  | .symlink n => n
  | .dir n _ => n

/-- Model of `Path.is_dir()` on a node (symlinks count as dangling). -/
def isDirN : FSNode → Bool
  | .dir _ _ => true
  | _ => false

/-- Model of `Path.is_symlink()` on a node. -/
def isSymlinkN : FSNode → Bool
  | .symlink _ => true
  | _ => false

/-- Children of a node (empty for non-directories). -/
def childrenN : FSNode → List FSNode
  | .dir _ cs => cs
  | _ => []

/-- Whether a name starts with `'.'` (Python `path.name.startswith(".")`). -/
def startsWithDot (s : String) : Bool :=
  match s.data with
  | c :: _ => c == '.'
  | [] => false

/-- Translation of `path_is_git_repo`: the path is a directory and its `.git`
child is a directory. -/
def path_is_git_repo (n : FSNode) : Bool :=
  isDirN n && (childrenN n).any (fun c => isDirN c && nodeName c == ".git")

/-- Configuration dictionary (the module-level `CONFIG`).  `find_project_dirs`
has it in scope but — with the dotfile-whitelist branch commented out in the
source — never reads it. -/
structure Config where
  parent_dir : PyPath
  depth : Int
  fzf_options : List String
  fzf_preview : String
  tmux_session_factory : String → PyPath → List (List String)
  allowed_dotfiles : List String

mutual

/-- Translation of `find_project_dirs(path, depth, acc)`.  `curPath` is the
absolute component list of the node being visited; recorded candidates are
such component lists.  The Python order of tests is: depth exhaustion, then
`is_symlink`, then `is_dir` (with the dotfile test, the `.git` test, and the
recursion into children inside); a path that is neither a symlink nor a
directory is ignored. -/
def find_project_dirs (cfg : Config) (node : FSNode) (curPath : List String)
    (depth : Int) (acc : List (List String)) : List (List String) :=
  if depth < 0 then acc
  else
    match node with
    | .symlink _ => acc ++ [curPath]
    | .file _ => acc
    | .dir name cs =>
      if startsWithDot name then acc ++ [curPath]
      else if path_is_git_repo (.dir name cs) then acc ++ [curPath]
      else walkChildren cfg cs curPath (depth - 1) (acc ++ [curPath])

/-- The `for child in path.iterdir()` loop of `find_project_dirs`, threading
the shared accumulator through the recursive calls. -/
def walkChildren (cfg : Config) (cs : List FSNode) (curPath : List String)
    (depth : Int) (acc : List (List String)) : List (List String) :=
  match cs with
  | [] => acc
  | c :: rest =>
    walkChildren cfg rest curPath depth
      (find_project_dirs cfg c (curPath ++ [nodeName c]) depth acc)

end

/-- All traversal checks a directory must pass before the walker descends into
its children: it is a directory, not a symbolic link, not dot-named, and not a
git repository root. -/
def okNode (n : FSNode) : Bool :=
  isDirN n && !isSymlinkN n && !startsWithDot (nodeName n) && !path_is_git_repo n

/-- `ReachRec n s m` says the relative component path `s` leads from `n` to
the node `m` inside `n`'s subtree, and every node strictly above `m` on that
branch passes `okNode` — i.e. the branch never passes through (descends below)
a symlink, a dot-named directory, or a directory containing `.git`. -/
inductive ReachRec : FSNode → List String → FSNode → Prop where
  | here (n : FSNode) : ReachRec n [] n
  | child {n c m : FSNode} {s : List String} :
      okNode n = true → c ∈ childrenN n → ReachRec c s m →
      ReachRec n (nodeName c :: s) m

/-! ## Environment-activation probe and the default layout factory -/

/-- Stat information the Python code asks the real filesystem for at a given
path string. -/
structure PathInfo where
  isDir : Bool
  isFile : Bool
deriving DecidableEq, Repr

/-- Translation of `detect_env_activation(path)` against a filesystem oracle
`fs` keyed by path strings. -/
def detect_env_activation (fs : String → PathInfo) (path : String) : Option (List String) :=
  if !(fs path).isDir then none
  else if (fs (pjoin path "shell.nix")).isFile then some ["nix-shell", "--run", "$SHELL"]
  else if (fs (pjoin path "pyproject.toml")).isFile then some ["poetry", "shell"]
  else if (fs (pjoin path ".venv")).isDir then
    some ["/usr/bin/env", "bash", "-c",
      "source " ++ pjoin (pjoin (pjoin path ".venv") "bin") "activate"]
  else none

/-- The `keys` dictionary of `standard_tmux_session` in its Python insertion
order: with an activation command every pane of windows 1-3 first gets the
joined activation string, and pane 1.1 additionally gets `"nvim ."`; without
one only pane 1.1 gets `"nvim ."`. -/
def sessionKeys (env_cmd : Option (List String)) : List (String × List String) :=
  match env_cmd with
  | some e =>
    let s := pyJoinStr " " e
    [("1.1", [s, "nvim ."]), ("2.1", [s]), ("2.2", [s]), ("3.1", [s])]
  | none => [("1.1", ["nvim ."])]

/-- Translation of `standard_tmux_session(session_name, path)`: the ordered
layout plan for a new session. -/
def standard_tmux_session (fs : String → PathInfo) (session_name : String)
    (path : PyPath) : List (List String) :=
  let apath := pathStr (pyResolve path)
  let env_cmd := detect_env_activation fs (pathStr path)
  [["tmux", "rename-window", "-t", session_name ++ ":1", "neovim"],
   ["tmux", "new-window", "-t", session_name, "-n", "dev", "-c", apath],
   ["tmux", "split-window", "-v", "-t", session_name ++ ":2", "-c", apath],
   ["tmux", "select-window", "-t", session_name ++ ":2.1"],
   ["tmux", "new-window", "-t", session_name, "-n", "shell", "-c", apath]]
  ++ (sessionKeys env_cmd).map (fun pk =>
       ["tmux", "send-keys", "-t", session_name ++ ":" ++ pk.1,
        pyJoinStr " && " pk.2, "C-m"])
  ++ [["tmux", "select-window", "-t", session_name ++ ":1"]]

/-- Extracts the `(target, keystrokes)` pairs of the `send-keys` commands of a
plan, in order. -/
def sendKeysOf : List (List String) → List (String × String)
  | [] => []
  | c :: rest =>
    match c with
    | ["tmux", "send-keys", "-t", t, k, "C-m"] => (t, k) :: sendKeysOf rest
    | _ => sendKeysOf rest

/-! ## External processes, traces, and errors -/

/-- Captured result of one external process run (`subprocess.run`). -/
structure ProcResult where
  returncode : Int
  stdout : String
  stderr : String
deriving DecidableEq, Repr

/-- Observable action of a run: one external process invocation or one
`print`. -/
inductive Act where
  | runFzf (cmd : List String) (input : List String)
  | runTmuxLs
  | runChecked (cmd : List String)
  | runCmd (cmd : List String)
  | printed (msg : String)
deriving DecidableEq, Repr

/-- Errors the Python code raises: `ValueError` with its message, and
`subprocess.CalledProcessError` with the failing command. -/
inductive PyErr where
  | valueError (msg : String)
  | calledProcessError (cmd : List String)
deriving DecidableEq, Repr

/-- All external collaborators of one run, as oracles: the filesystem tree at
the parent directory, the fzf process, the `tmux ls` query, the exit code of
each checked tmux command, directory stats, and the `TMUX` variable. -/
structure World where
  fsTree : FSNode
  fzf : List String → List String → ProcResult
  tmuxLs : ProcResult
  exec : List String → Int
  isDir : PyPath → Bool
  fs : String → PathInfo
  insideTmux : Bool

/-! ## Candidate Selector (`send_list_of_paths_to_fzf`) -/

/-- Model of `list(set(paths))`: duplicates removed, first occurrence kept. -/
def pyDedup : List PyPath → List PyPath
  | [] => []
  | x :: xs => x :: (pyDedup xs).filter (fun y => y ≠ x)

/-- Python's `sorted(..., key=str)` order on paths. -/
def absLe (a b : PyPath) : Prop := pyStrLe (pathStr a) (pathStr b) = true

instance : DecidableRel absLe := fun a b => by unfold absLe; infer_instance

/-- Model of `[path.relative_to(parent) for path in paths]`: the first failing
`relative_to` raises (`none`). -/
def relAll (parent : PyPath) : List PyPath → Option (List PyPath)
  | [] => some []
  | p :: rest =>
    match relative_to p parent with
    | some r =>
      match relAll parent rest with
      | some rs => some (r :: rs)
      | none => none
    | none => none

/-- The list of lines `send_list_of_paths_to_fzf` writes to fzf's stdin:
deduplicate, sort by the string form of the (absolute) paths, then express
each relative to `parent_dir`. -/
def fzfInput (paths : List PyPath) (parent_dir : PyPath) : Except String (List String) :=
  match relAll parent_dir (List.insertionSort absLe (pyDedup paths)) with
  | some rels => Except.ok (rels.map pathStr)
  | none => Except.error "relative_to: path is not relative to the parent directory"

/-- Modelled from the spec (for comparison with `fzfInput`): canonicalize and
deduplicate candidates by absolute path, express each relative to the parent,
and sort lexicographically by the relative string form. -/
def fzfInputSpec (paths : List PyPath) (parent_dir : PyPath) : Except String (List String) :=
  match relAll parent_dir (pyDedup paths) with
  | some rels =>
    Except.ok (List.insertionSort (fun a b : String => pyStrLe a b = true) (rels.map pathStr))
  | none => Except.error "relative_to: path is not relative to the parent directory"

/-- The fzf command line assembled from the configuration (the preview
template substitutes the parent directory and the `\x7b\x7d` placeholder). -/
def fzfCmd (cfg : Config) (parent_dir : PyPath) : List String :=
  ["fzf"] ++ cfg.fzf_options ++
    (if cfg.fzf_preview = "" then []
     else ["--preview", cfg.fzf_preview ++ " " ++ pathStr parent_dir ++ "/\x7b\x7d"])

/-- The fixed message of the `ValueError` raised when no valid directory was
selected. -/
def noValidDirMsg : String :=
  "No valid directory selected. Do you have fzf installed and in your PATH?"

/-- Translation of `send_list_of_paths_to_fzf(paths, parent_dir)`: the outcome
(`ok (some p)` selected, `ok none` cancelled, `error` raised) together with
the trace of the fzf invocation and every `print`. -/
def send_list_of_paths_to_fzf (cfg : Config) (w : World) (paths : List PyPath)
    (parent_dir : PyPath) : Except PyErr (Option PyPath) × List Act :=
  match fzfInput paths parent_dir with
  | Except.error e => (Except.error (PyErr.valueError e), [])
  | Except.ok lines =>
    let cmd := fzfCmd cfg parent_dir
    let res := w.fzf cmd lines
    if res.returncode = 0 then
      let selected := pyJoin parent_dir (parsePath (pyStrip res.stdout))
      if w.isDir selected then
        (Except.ok (some (pyResolve selected)), [Act.runFzf cmd lines])
      else (Except.error (PyErr.valueError noValidDirMsg), [Act.runFzf cmd lines])
    else if res.returncode = 130 then
      (Except.ok none, [Act.runFzf cmd lines, Act.printed "fzf selection cancelled."])
    else
      (Except.error (PyErr.valueError noValidDirMsg),
       [Act.runFzf cmd lines,
        Act.printed ("Some unknown error occurrsed during the fzf selection. fzf exited with code:  "
          ++ toString res.returncode),
        Act.printed (" === Output: ===\n " ++ res.stdout ++ " \n === End of output ==="),
        Act.printed (" === Error: ===\n " ++ res.stderr ++ " \n === End of error ===")])

/-! ## Session Registry (`find_tmux_session_by_path`) -/

/-- Model of `result.stdout.strip().splitlines()` (tmux emits newline-separated
lines; an empty stripped output yields no lines). -/
def strippedLines (s : String) : List String :=
  let t := pyStrip s
  if t = "" then [] else splitChar '\n' t

/-- Per-line body of the registry loop: a line without `":"` is skipped
(`none`); otherwise it is split once into `name` and `session_path` and the
resolved `session_path` is compared with the resolved target for equality. -/
def sessionLineMatch (target : PyPath) (line : String) : Option String :=
  match breakAtChar ':' line.data with
  | none => none
  | some (a, b) =>
    if pyResolve (parsePath (String.mk b)) = pyResolve target then some (String.mk a)
    else none

/-- The `for line in ...` loop of `find_tmux_session_by_path`: the name paired
with the first matching line, in listing order. -/
def scanSessionLines (target : PyPath) : List String → Option String
  | [] => none
  | l :: rest =>
    match sessionLineMatch target l with
    | some n => some n
    | none => scanSessionLines target rest

/-- Translation of `find_tmux_session_by_path(path)` applied to the captured
result of `tmux ls -F "#{session_name}:#{session_path}"`.  Exit code 1 with a
"no server running" diagnostic and any other non-zero exit code both yield
`None` (the latter after printing a warning, which this pure view drops). -/
def find_tmux_session_by_path (ls : ProcResult) (path : PyPath) : Option String :=
  if ls.returncode = 1 && pyStartsWith "no server running" ls.stderr then none
  else if ls.returncode ≠ 0 then none
  else scanSessionLines path (strippedLines ls.stdout)

/-! ## Session Launcher and Attacher -/

/-- The `tmux new-session -d -s name -c path` command of the launcher. -/
def newSessionCmd (session_name : String) (path : PyPath) : List String :=
  ["tmux", "new-session", "-d", "-s", session_name, "-c", pathStr path]

/-- Runs plan steps in order with `check=True`: the first command with a
non-zero exit raises `CalledProcessError` and aborts the rest; the second
component is the list of commands actually executed, in order. -/
def runAll (exec : List String → Int) : List (List String) → Except (List String) Unit × List (List String)
  | [] => (Except.ok (), [])
  | c :: rest =>
    if exec c = 0 then
      let r := runAll exec rest
      (r.1, c :: r.2)
    else (Except.error c, [c])

/-- Translation of `start_standard_tmux_session(session_name, path)`: create
the detached session, then execute the configured factory's plan strictly in
order, stopping at the first failure. -/
def start_standard_tmux_session (cfg : Config) (exec : List String → Int)
    (session_name : String) (path : PyPath) : Except (List String) Unit × List (List String) :=
  if exec (newSessionCmd session_name path) = 0 then
    let r := runAll exec (cfg.tmux_session_factory session_name path)
    (r.1, newSessionCmd session_name path :: r.2)
  else (Except.error (newSessionCmd session_name path), [newSessionCmd session_name path])

/-- Translation of `attach_to_tmux_session`: switch the client when already
inside tmux, attach otherwise. -/
def attach_to_tmux_session (insideTmux : Bool) (session_name : String) : List Act :=
  if insideTmux then [Act.runCmd ["tmux", "switch-client", "-t", session_name]]
  else [Act.runCmd ["tmux", "attach-session", "-t", session_name]]

/-- The launch-then-attach branch of `find_session_or_start_then_attach`: the
session name is the base name of the selected path. -/
def launchBranch (cfg : Config) (w : World) (selected_path : PyPath) : Except PyErr Int × List Act :=
  let session_name := pyName selected_path
  let r := start_standard_tmux_session cfg w.exec session_name selected_path
  match r.1 with
  | Except.ok _ =>
    (Except.ok 0, Act.runTmuxLs :: r.2.map Act.runChecked
      ++ attach_to_tmux_session w.insideTmux session_name)
  | Except.error c => (Except.error (PyErr.calledProcessError c), Act.runTmuxLs :: r.2.map Act.runChecked)

/-- Translation of `find_session_or_start_then_attach(selected_path)`.  The
walrus `if session_name := find_tmux_session_by_path(...)` treats an empty
name as falsy, so both `None` and `""` take the launch branch. -/
def find_session_or_start_then_attach (cfg : Config) (w : World)
    (selected_path : PyPath) : Except PyErr Int × List Act :=
  if w.isDir selected_path = false then
    (Except.error (PyErr.valueError (pathStr selected_path ++ " is not a valid directory.")), [])
  else
    match find_tmux_session_by_path w.tmuxLs selected_path with
    | some name =>
      if name = "" then launchBranch cfg w selected_path
      else (Except.ok 0, Act.runTmuxLs :: attach_to_tmux_session w.insideTmux name)
    | none => launchBranch cfg w selected_path

/-! ## The discovery branch of `main` -/

/-- The candidate `Path` objects discovery hands to the selector: the walker's
component lists, as paths sharing the parent's anchor. -/
def projectPaths (cfg : Config) (w : World) (parent_dir : PyPath) : List PyPath :=
  (find_project_dirs cfg w.fsTree parent_dir.comps cfg.depth []).map
    (fun c => PyPath.mk parent_dir.absolute c)

/-- The message of the `ValueError` raised when discovery finds nothing. -/
def noSubdirsMsg (parent_dir : PyPath) : String :=
  "No subdirectories found in " ++ pathStr parent_dir ++ "."

/-- Translation of the discovery branch of `main` (no positional directory, no
`--sessions` flag), starting from the already-resolved parent directory:
validate the parent, walk, fail when nothing was found, run the selector, and
on a selection reconcile against the registry. -/
def main_discovery (cfg : Config) (w : World) (parent_dir : PyPath) : Except PyErr Int × List Act :=
  if w.isDir parent_dir = false then
    (Except.error (PyErr.valueError (pathStr parent_dir ++ " is not a valid directory.")), [])
  else
    let dirs := projectPaths cfg w parent_dir
    if dirs = [] then (Except.error (PyErr.valueError (noSubdirsMsg parent_dir)), [])
    else
      let r := send_list_of_paths_to_fzf cfg w dirs parent_dir
      match r.1 with
      | Except.error e => (Except.error e, r.2)
      | Except.ok none => (Except.ok 1, r.2 ++ [Act.printed "No directory selected. Exiting."])
      | Except.ok (some selected) =>
        let r2 := find_session_or_start_then_attach cfg w selected
        (r2.1, r.2 ++ r2.2)

deriving instance DecidableEq for Except

/-! ## Walker lemmas -/

mutual

/-- The accumulator is only ever appended to. -/
theorem fpd_append (cfg : Config) (n : FSNode) (p : List String) (d : Int)
    (acc : List (List String)) :
    find_project_dirs cfg n p d acc = acc ++ find_project_dirs cfg n p d [] := by
  cases n with
  | file nm => simp only [find_project_dirs]; split <;> simp
  | symlink nm => simp only [find_project_dirs]; split <;> simp
  | dir nm cs =>
    simp only [find_project_dirs]
    split
    · simp
    · split
      · simp
      · split
        · simp
        · rw [wc_append cfg cs p (d - 1) (acc ++ [p]), wc_append cfg cs p (d - 1) ([] ++ [p])]
          simp

/-- The accumulator is only ever appended to (children loop). -/
theorem wc_append (cfg : Config) (cs : List FSNode) (p : List String) (d : Int)
    (acc : List (List String)) :
    walkChildren cfg cs p d acc = acc ++ walkChildren cfg cs p d [] := by
  cases cs with
  | nil => simp [walkChildren]
  | cons c rest =>
    simp only [walkChildren]
    rw [wc_append cfg rest p d (find_project_dirs cfg c (p ++ [nodeName c]) d acc),
        wc_append cfg rest p d (find_project_dirs cfg c (p ++ [nodeName c]) d []),
        fpd_append cfg c (p ++ [nodeName c]) d acc]
    simp

end

/-- A path recorded by the children loop was recorded while visiting one of
the children. -/
theorem wc_mem (cfg : Config) (cs : List FSNode) (p : List String) (d : Int)
    (q : List String) (h : q ∈ walkChildren cfg cs p d []) :
    ∃ c ∈ cs, q ∈ find_project_dirs cfg c (p ++ [nodeName c]) d [] := by
  induction cs with
  | nil => simp [walkChildren] at h
  | cons c rest ih =>
    have hstep : walkChildren cfg (c :: rest) p d []
        = find_project_dirs cfg c (p ++ [nodeName c]) d [] ++ walkChildren cfg rest p d [] := by
      simp only [walkChildren]
      rw [wc_append]
    rw [hstep] at h
    rcases List.mem_append.mp h with h1 | h2
    · exact ⟨c, by simp, h1⟩
    · obtain ⟨c', hc', hq⟩ := ih h2
      exact ⟨c', by simp [hc'], hq⟩

/-- Fuel-indexed form of the core walker invariant, by strong induction on the
size of the node. -/
theorem fpd_mem_aux (cfg : Config) (k : Nat) :
    ∀ (n : FSNode), sizeOf n ≤ k → ∀ (p : List String) (d : Int) (q : List String),
    q ∈ find_project_dirs cfg n p d [] →
    ∃ s m, q = p ++ s ∧ (s.length : Int) ≤ d ∧ ReachRec n s m := by
  induction k with
  | zero =>
    intro n hn
    exfalso
    cases n <;> simp at hn
  | succ k ih =>
    intro n hn p d q h
    by_cases hd : d < 0
    · rw [show find_project_dirs cfg n p d [] = [] from by
        cases n <;> simp [find_project_dirs, hd]] at h
      simp at h
    · cases n with
      | file nm =>
        rw [show find_project_dirs cfg (.file nm) p d [] = [] from by
          simp [find_project_dirs, hd]] at h
        simp at h
      | symlink nm =>
        rw [show find_project_dirs cfg (.symlink nm) p d [] = [p] from by
          simp [find_project_dirs, hd]] at h
        simp at h
        exact ⟨[], .symlink nm, by simp [h], by simpa using by omega, ReachRec.here _⟩
      | dir nm cs =>
        by_cases hdot : startsWithDot nm
        · rw [show find_project_dirs cfg (.dir nm cs) p d [] = [p] from by
            simp [find_project_dirs, hd, hdot]] at h
          simp at h
          exact ⟨[], .dir nm cs, by simp [h], by simpa using by omega, ReachRec.here _⟩
        · by_cases hgit : path_is_git_repo (.dir nm cs)
          · rw [show find_project_dirs cfg (.dir nm cs) p d [] = [p] from by
              simp [find_project_dirs, hd, hdot, hgit]] at h
            simp at h
            exact ⟨[], .dir nm cs, by simp [h], by simpa using by omega, ReachRec.here _⟩
          · rw [show find_project_dirs cfg (.dir nm cs) p d []
                = [p] ++ walkChildren cfg cs p (d - 1) [] from by
              simp only [find_project_dirs]
              rw [if_neg hd, if_neg hdot, if_neg hgit,
                show ([] : List (List String)) ++ [p] = [p] from rfl, wc_append]] at h
            rcases List.mem_append.mp h with h1 | h2
            · simp at h1
              exact ⟨[], .dir nm cs, by simp [h1], by simpa using by omega, ReachRec.here _⟩
            · obtain ⟨c, hc, hq⟩ := wc_mem cfg cs p (d - 1) q h2
              have hcsize : sizeOf c ≤ k := by
                have h1 := List.sizeOf_lt_of_mem hc
                have h2 : sizeOf (FSNode.dir nm cs) ≤ k + 1 := hn
                simp at h2
                have h3 : 1 ≤ sizeOf nm := by
                  cases nm
                  simp
                omega
              obtain ⟨s', m, hqe, hlen, hreach⟩ :=
                ih c hcsize (p ++ [nodeName c]) (d - 1) q hq
              refine ⟨nodeName c :: s', m, by simp [hqe], ?_, ?_⟩
              · simp only [List.length_cons]
                push_cast
                omega
              · exact ReachRec.child
                  (by simp [okNode, isDirN, isSymlinkN, nodeName, hdot, hgit])
                  (by simpa [childrenN] using hc) hreach

/-- Core walker invariant at the natural statement. -/
theorem fpd_mem (cfg : Config) (n : FSNode) (p : List String) (d : Int)
    (q : List String) (h : q ∈ find_project_dirs cfg n p d []) :
    ∃ s m, q = p ++ s ∧ (s.length : Int) ≤ d ∧ ReachRec n s m :=
  fpd_mem_aux cfg (sizeOf n) n (Nat.le_refl _) p d q h

/-- A directory root that is not a symlink is always recorded when the depth
budget is non-negative. -/
theorem fpd_root_mem (cfg : Config) (n : FSNode) (p : List String) (d : Int)
    (h1 : isDirN n = true) (h2 : isSymlinkN n = false) (h3 : 0 ≤ d) :
    p ∈ find_project_dirs cfg n p d [] := by
  cases n with
  | file nm => simp [isDirN] at h1
  | symlink nm => simp [isSymlinkN] at h2
  | dir nm cs =>
    simp only [find_project_dirs]
    rw [if_neg (by omega)]
    split
    · simp
    · split
      · simp
      · rw [show ([] : List (List String)) ++ [p] = [p] from rfl, wc_append]
        simp

mutual

/-- The walker never reads the configuration (the dotfile-whitelist branch is
commented out in the source). -/
theorem fpd_cfg_irrel (cfg cfg' : Config) (n : FSNode) (p : List String) (d : Int)
    (acc : List (List String)) :
    find_project_dirs cfg n p d acc = find_project_dirs cfg' n p d acc := by
  cases n with
  | file nm => simp only [find_project_dirs]
  | symlink nm => simp only [find_project_dirs]
  | dir nm cs =>
    simp only [find_project_dirs]
    split
    · rfl
    · split
      · rfl
      · split
        · rfl
        · exact wc_cfg_irrel cfg cfg' cs p (d - 1) (acc ++ [p])

/-- The children loop never reads the configuration. -/
theorem wc_cfg_irrel (cfg cfg' : Config) (cs : List FSNode) (p : List String) (d : Int)
    (acc : List (List String)) :
    walkChildren cfg cs p d acc = walkChildren cfg' cs p d acc := by
  cases cs with
  | nil => simp [walkChildren]
  | cons c rest =>
    simp only [walkChildren]
    rw [fpd_cfg_irrel cfg cfg' c (p ++ [nodeName c]) d acc]
    exact wc_cfg_irrel cfg cfg' rest p d (find_project_dirs cfg' c (p ++ [nodeName c]) d acc)

end

/-! ## Concrete fixtures used by the witness theorems -/

/-- Concrete configuration for witnesses (mirrors the source's `CONFIG` with a
home of `/home`). -/
def cfgW : Config :=
  { parent_dir := ⟨true, ["home"]⟩
    depth := 2
    fzf_options := ["--cycle"]
    fzf_preview := ""
    tmux_session_factory := fun _ _ => []
    allowed_dotfiles := [".config", ".dotfiles"] }

/-- Concrete directory tree for witnesses: a project with a subdirectory, a
dot-directory with a child, a git repository with internals, a symlink and a
plain file. -/
def treeW : FSNode :=
  .dir "home"
    [.dir "proj" [.dir "sub" [.dir "deep" []]],
     .dir ".cfg" [.dir "inner" []],
     .dir "repo" [.dir ".git" [], .dir "src" []],
     .symlink "link",
     .file "notes"]

/-- The claim C1 states the Walker records only paths within `d + 1` levels of
the root, inside the root's subtree, and never descends below a symbolic
link, a dot-named directory, or a directory containing `.git`.  `ReachRec`
packages exactly that: the recorded path is a branch of the root's tree whose
interior nodes all pass `okNode`. -/
theorem walker_bounded_and_guarded (cfg : Config) (root : FSNode) (rootPath : List String)
    (d : Int) (q : List String) (hd : 0 ≤ d)
    (hq : q ∈ find_project_dirs cfg root rootPath d []) :
    ∃ s m, q = rootPath ++ s ∧ (s.length : Int) ≤ d + 1 ∧ ReachRec root s m := by
  obtain ⟨s, m, h1, h2, h3⟩ := fpd_mem cfg root rootPath d q hq
  exact ⟨s, m, h1, by omega, h3⟩

/-- Witness for C1 at the concrete tree `treeW`. -/
theorem walker_bounded_and_guarded_witness :
    ∃ s m, ["home", "proj", "sub"] = ["home"] ++ s ∧ (s.length : Int) ≤ 2 + 1 ∧ ReachRec treeW s m :=
  walker_bounded_and_guarded cfgW treeW ["home"] 2 ["home", "proj", "sub"] (by decide) (by decide)

/-- The claim C8 states the `allowed_dotfiles` configuration entry is inert:
the walker's output is the same for any two values of it, and a dot-named
directory is always recorded as a leaf without being descended into. -/
theorem allowed_dotfiles_inert (cfg : Config) (l1 l2 : List String)
    (n : FSNode) (p : List String) (d : Int) (acc : List (List String))
    (dn : FSNode) (dp : List String) (dd : Int) (dacc : List (List String))
    (hd : 0 ≤ dd) (h1 : isDirN dn = true) (h2 : isSymlinkN dn = false)
    (h3 : startsWithDot (nodeName dn) = true) :
    find_project_dirs { cfg with allowed_dotfiles := l1 } n p d acc
      = find_project_dirs { cfg with allowed_dotfiles := l2 } n p d acc
    ∧ find_project_dirs cfg dn dp dd dacc = dacc ++ [dp] := by
  refine ⟨fpd_cfg_irrel _ _ n p d acc, ?_⟩
  cases dn with
  | file nm => simp [isDirN] at h1
  | symlink nm => simp [isSymlinkN] at h2
  | dir nm cs =>
    simp only [find_project_dirs]
    rw [if_neg (by omega), if_pos (by simpa [nodeName] using h3)]

/-- Witness for C8: two different whitelists give the same walk of `treeW`,
and the dot-directory `.cfg` is recorded as a non-descended leaf. -/
theorem allowed_dotfiles_inert_witness :
    find_project_dirs { cfgW with allowed_dotfiles := [".config"] } treeW ["home"] 2 []
      = find_project_dirs { cfgW with allowed_dotfiles := [] } treeW ["home"] 2 []
    ∧ find_project_dirs cfgW (.dir ".cfg" [.dir "inner" []]) ["home", ".cfg"] 1 []
      = [] ++ [["home", ".cfg"]] :=
  allowed_dotfiles_inert cfgW [".config"] [] treeW ["home"] 2 []
    (.dir ".cfg" [.dir "inner" []]) ["home", ".cfg"] 1 []
    (by decide) (by decide) (by decide) (by decide)

/-- The claim C9 states the Walker always records the (existing, non-symlink)
root itself when the depth is non-negative, so the candidate list is
non-empty, and the "no subdirectories found" validation failure — which is
exactly the empty-walker branch of `main` — requires a negative depth. -/
theorem discovery_root_recorded (cfg : Config) (w : World) (parent : PyPath)
    (h1 : isDirN w.fsTree = true) (h2 : isSymlinkN w.fsTree = false)
    (hp : w.isDir parent = true) :
    (0 ≤ cfg.depth →
      parent.comps ∈ find_project_dirs cfg w.fsTree parent.comps cfg.depth []
      ∧ projectPaths cfg w parent ≠ [])
    ∧ (find_project_dirs cfg w.fsTree parent.comps cfg.depth [] = [] → cfg.depth < 0)
    ∧ (find_project_dirs cfg w.fsTree parent.comps cfg.depth [] = [] →
        main_discovery cfg w parent
          = (Except.error (PyErr.valueError (noSubdirsMsg parent)), [])) := by
  refine ⟨?_, ?_, ?_⟩
  · intro hd
    have hm := fpd_root_mem cfg w.fsTree parent.comps cfg.depth h1 h2 hd
    refine ⟨hm, ?_⟩
    intro hemp
    rw [show projectPaths cfg w parent = [] ↔
        find_project_dirs cfg w.fsTree parent.comps cfg.depth [] = [] from by
      simp [projectPaths]] at hemp
    rw [hemp] at hm
    simp at hm
  · intro hemp
    by_contra hd
    have hm := fpd_root_mem cfg w.fsTree parent.comps cfg.depth h1 h2 (by omega)
    rw [hemp] at hm
    simp at hm
  · intro hemp
    simp only [main_discovery, hp]
    rw [if_neg (by simp), if_pos (by simp [projectPaths, hemp])]

/-- Concrete world for witnesses: the tree `treeW`, an fzf that reports
cancellation, a tmux with no server running, and successful tmux commands. -/
def wW : World :=
  { fsTree := treeW
    fzf := fun _ _ => ⟨130, "", ""⟩
    tmuxLs := ⟨1, "", "no server running (no such file or directory)"⟩
    exec := fun _ => 0
    isDir := fun _ => true
    fs := fun _ => ⟨true, false⟩
    insideTmux := false }

/-- Witness for C9 with the concrete tree `treeW`, whose walk at depth 2 is
non-empty and contains the root `/home`. -/
theorem discovery_root_recorded_witness :
    (0 ≤ cfgW.depth →
      PyPath.comps ⟨true, ["home"]⟩ ∈ find_project_dirs cfgW wW.fsTree
          (PyPath.comps ⟨true, ["home"]⟩) cfgW.depth []
      ∧ projectPaths cfgW wW ⟨true, ["home"]⟩ ≠ [])
    ∧ (find_project_dirs cfgW wW.fsTree (PyPath.comps ⟨true, ["home"]⟩) cfgW.depth [] = []
        → cfgW.depth < 0)
    ∧ (find_project_dirs cfgW wW.fsTree (PyPath.comps ⟨true, ["home"]⟩) cfgW.depth [] = [] →
        main_discovery cfgW wW ⟨true, ["home"]⟩
          = (Except.error (PyErr.valueError (noSubdirsMsg ⟨true, ["home"]⟩)), [])) :=
  discovery_root_recorded cfgW wW ⟨true, ["home"]⟩ (by decide) (by decide) (by decide)

/-- The claim C3 states the registry lookup considers only lines with a
separator, splits each once, compares resolved paths for equality, and
returns the first match in listing order (`List.findSome?` semantics of the
per-line matcher `sessionLineMatch`); and on the concrete listing
`["dev:/home/x", "work:/home/y"]` with non-canonical target `/home/y/` it
returns `"work"`. -/
theorem registry_first_match (target : PyPath) :
    (∀ lines : List String,
      scanSessionLines target lines = lines.findSome? (sessionLineMatch target))
    ∧ find_tmux_session_by_path ⟨0, "dev:/home/x\nwork:/home/y", ""⟩ (parsePath "/home/y/")
        = some "work" := by
  constructor
  · intro lines
    induction lines with
    | nil => rfl
    | cons l rest ih =>
      simp only [scanSessionLines, List.findSome?]
      cases sessionLineMatch target l <;> simp [ih]
  · decide

/-- The claim C5 states layout-plan steps run strictly in order and the first
non-zero exit aborts the remaining steps, surfacing the failing command,
while the already-created session (step 0) stays in the executed trace. -/
theorem launcher_stops_at_first_failure (cfg : Config) (exec : List String → Int)
    (name : String) (path : PyPath) (k : Nat)
    (hk : k < (cfg.tmux_session_factory name path).length)
    (h0 : exec (newSessionCmd name path) = 0)
    (hprev : ∀ j (hj : j < k),
      exec ((cfg.tmux_session_factory name path).get ⟨j, lt_trans hj hk⟩) = 0)
    (hfail : exec ((cfg.tmux_session_factory name path).get ⟨k, hk⟩) ≠ 0) :
    start_standard_tmux_session cfg exec name path
      = (Except.error ((cfg.tmux_session_factory name path).get ⟨k, hk⟩),
         newSessionCmd name path :: (cfg.tmux_session_factory name path).take (k + 1)) := by
  have haux : ∀ (l : List (List String)) (k : Nat) (hk : k < l.length),
      (∀ j (hj : j < k), exec (l.get ⟨j, lt_trans hj hk⟩) = 0) →
      exec (l.get ⟨k, hk⟩) ≠ 0 →
      runAll exec l = (Except.error (l.get ⟨k, hk⟩), l.take (k + 1)) := by
    intro l
    induction l with
    | nil => intro k hk; exact absurd hk (by simp)
    | cons c rest ih =>
      intro k hk hprev hfail
      cases k with
      | zero =>
        simp only [List.get] at hfail
        simp [runAll, hfail]
      | succ k' =>
        have hc : exec c = 0 := by
          have := hprev 0 (Nat.succ_pos k')
          simpa [List.get] using this
        have hrest := ih k' (by simpa using hk)
          (fun j hj => by
            have := hprev (j + 1) (by omega)
            simpa [List.get] using this)
          (by simpa [List.get] using hfail)
        simp only [runAll, if_pos hc, hrest]
        simp [List.get, List.take]
  simp only [start_standard_tmux_session, if_pos h0]
  rw [haux (cfg.tmux_session_factory name path) k hk hprev hfail]

/-- Configuration whose layout factory is the four-step plan used by the C5
witness. -/
def cfgPlan : Config :=
  { cfgW with tmux_session_factory := fun _ _ => [["s1"], ["s2"], ["s3"], ["s4"]] }

/-- Executor for the C5 witness: every command succeeds except the third
layout step. -/
def execFail3 : List String → Int := fun c => if c = ["s3"] then 1 else 0

/-- Witness for C5: with the third layout step failing, execution stops right
after it — the session-creation command and the first three steps ran, the
fourth never did, and the error carries the failing step. -/
theorem launcher_stops_at_first_failure_witness :
    start_standard_tmux_session cfgPlan execFail3 "proj" ⟨true, ["home", "proj"]⟩
      = (Except.error ((cfgPlan.tmux_session_factory "proj" ⟨true, ["home", "proj"]⟩).get
           ⟨2, by decide⟩),
         newSessionCmd "proj" ⟨true, ["home", "proj"]⟩
           :: (cfgPlan.tmux_session_factory "proj" ⟨true, ["home", "proj"]⟩).take 3) :=
  launcher_stops_at_first_failure cfgPlan execFail3 "proj" ⟨true, ["home", "proj"]⟩ 2
    (by decide) (by decide) (by decide) (by decide)

/-! ## Ordering lemmas for the selector's sort -/

/-- `charListLe` is total. -/
theorem charListLe_total (a : List Char) : ∀ b, charListLe a b = true ∨ charListLe b a = true := by
  induction a with
  | nil => intro b; left; rfl
  | cons x as ih =>
    intro b
    cases b with
    | nil => right; rfl
    | cons y bs =>
      simp only [charListLe]
      rcases lt_trichotomy x y with h | h | h
      · left; rw [if_pos h]
      · subst h
        rcases ih bs with h2 | h2
        · left; rw [if_neg (lt_irrefl x), if_neg (lt_irrefl x)]; exact h2
        · right; rw [if_neg (lt_irrefl x), if_neg (lt_irrefl x)]; exact h2
      · right; rw [if_pos h]

/-- `charListLe` is transitive. -/
theorem charListLe_trans (a : List Char) :
    ∀ b c, charListLe a b = true → charListLe b c = true → charListLe a c = true := by
  induction a with
  | nil => intro b c _ _; rfl
  | cons x as ih =>
    intro b c hab hbc
    cases b with
    | nil => simp [charListLe] at hab
    | cons y bs =>
      cases c with
      | nil => simp [charListLe] at hbc
      | cons z cs =>
        simp only [charListLe] at hab hbc ⊢
        rcases lt_trichotomy x y with hxy | hxy | hxy
        · rcases lt_trichotomy y z with hyz | hyz | hyz
          · rw [if_pos (lt_trans hxy hyz)]
          · subst hyz; rw [if_pos hxy]
          · rw [if_neg (asymm hyz), if_pos hyz] at hbc; simp at hbc
        · subst hxy
          rcases lt_trichotomy x z with hyz | hyz | hyz
          · rw [if_pos hyz]
          · subst hyz
            rw [if_neg (lt_irrefl x), if_neg (lt_irrefl x)] at hab hbc ⊢
            exact ih bs cs hab hbc
          · rw [if_neg (asymm hyz), if_pos hyz] at hbc
            simp at hbc
        · rw [if_neg (asymm hxy), if_pos hxy] at hab
          simp at hab

instance : IsTotal PyPath absLe :=
  ⟨fun a b => by
    unfold absLe pyStrLe
    exact charListLe_total (pathStr a).data (pathStr b).data⟩

instance : IsTrans PyPath absLe :=
  ⟨fun a b c hab hbc => by
    unfold absLe pyStrLe at hab hbc ⊢
    exact charListLe_trans (pathStr a).data (pathStr b).data (pathStr c).data hab hbc⟩

/-! ## Deduplication lemmas -/

/-- Membership is preserved by `pyDedup`. -/
theorem mem_pyDedup (x : PyPath) : ∀ l, x ∈ pyDedup l ↔ x ∈ l := by
  intro l
  induction l with
  | nil => simp [pyDedup]
  | cons y ys ih =>
    simp only [pyDedup, List.mem_cons, List.mem_filter]
    constructor
    · rintro (rfl | ⟨hmem, _⟩)
      · exact Or.inl rfl
      · exact Or.inr (ih.mp hmem)
    · rintro (rfl | hmem)
      · exact Or.inl rfl
      · by_cases hxy : x = y
        · exact Or.inl hxy
        · exact Or.inr ⟨ih.mpr hmem, by simpa using hxy⟩

/-- `pyDedup` produces a duplicate-free list. -/
theorem nodup_pyDedup : ∀ l, (pyDedup l).Nodup := by
  intro l
  induction l with
  | nil => simp [pyDedup]
  | cons y ys ih =>
    simp only [pyDedup]
    refine List.Nodup.cons ?_ (List.Nodup.filter _ ih)
    intro hmem
    have := (List.mem_filter.mp hmem).2
    simp at this

/-- `relAll` succeeds with the pointwise `relative_to` results. -/
theorem relAll_forall2 (parent : PyPath) :
    ∀ l rs, relAll parent l = some rs →
      List.Forall₂ (fun q r => relative_to q parent = some r) l rs := by
  intro l
  induction l with
  | nil =>
    intro rs h
    simp only [relAll, Option.some.injEq] at h
    subst h
    exact List.Forall₂.nil
  | cons p rest ih =>
    intro rs h
    simp only [relAll] at h
    cases hr : relative_to p parent with
    | none => rw [hr] at h; simp at h
    | some r =>
      rw [hr] at h
      cases hrest : relAll parent rest with
      | none => rw [hrest] at h; simp at h
      | some rs' =>
        rw [hrest] at h
        simp only [Option.some.injEq] at h
        subst h
        exact List.Forall₂.cons hr (ih rs' hrest)

/-- Lifts the `relAll` correspondence through the final `str(...)` rendering. -/
theorem forall2_relStr (parent : PyPath) :
    ∀ (qs rs : List PyPath),
      List.Forall₂ (fun q r => relative_to q parent = some r) qs rs →
      List.Forall₂ (fun q s => ∃ r, relative_to q parent = some r ∧ pathStr r = s)
        qs (rs.map pathStr) := by
  intro qs rs h
  induction h with
  | nil => exact List.Forall₂.nil
  | cons hqr _ ih => exact List.Forall₂.cons ⟨_, hqr, rfl⟩ ih

/-- Counterexample to C2 as stated: with candidates `{/p, /p/!a}` (the walker
always includes the parent itself) and parent `/p`, the code passes
`[".", "!a"]` to fzf — sorted by the absolute string form before
relativizing — while the spec's order, lexicographic on the relative string
form, would be `["!a", "."]`; the list passed is not sorted by the relative
string form. -/
theorem selector_list_counterexample :
    fzfInput [⟨true, ["p"]⟩, ⟨true, ["p", "!a"]⟩] ⟨true, ["p"]⟩ = Except.ok [".", "!a"]
    ∧ fzfInputSpec [⟨true, ["p"]⟩, ⟨true, ["p", "!a"]⟩] ⟨true, ["p"]⟩ = Except.ok ["!a", "."]
    ∧ ¬ List.Sorted (fun a b : String => pyStrLe a b = true) [".", "!a"]
    ∧ (Except.ok [".", "!a"] : Except String (List String)) ≠ Except.ok ["!a", "."] := by
  refine ⟨by decide, by decide, ?_, by decide⟩
  intro h
  have := List.rel_of_sorted_cons h "!a" (by simp)
  simp [pyStrLe, charListLe] at this

/-- The claim C2, amended: the list passed to fzf enumerates the
deduplicated candidates exactly once each, sorted lexicographically by the
ABSOLUTE string form, and then rendered relative to the parent; on the
claim's own example the result is `["a", "b"]`. -/
theorem selector_list_amended (paths : List PyPath) (parent : PyPath) (l : List String)
    (h : fzfInput paths parent = Except.ok l) :
    (∃ qs : List PyPath,
      List.Sorted absLe qs ∧ qs.Nodup ∧ (∀ x, x ∈ qs ↔ x ∈ paths) ∧
      List.Forall₂ (fun q s => ∃ r, relative_to q parent = some r ∧ pathStr r = s) qs l)
    ∧ fzfInput [⟨true, ["p", "b"]⟩, ⟨true, ["p", "a"]⟩, ⟨true, ["p", "a"]⟩] ⟨true, ["p"]⟩
        = Except.ok ["a", "b"] := by
  refine ⟨?_, by decide⟩
  unfold fzfInput at h
  cases hrel : relAll parent (List.insertionSort absLe (pyDedup paths)) with
  | none => rw [hrel] at h; simp at h
  | some rels =>
    rw [hrel] at h
    simp only [Except.ok.injEq] at h
    subst h
    refine ⟨List.insertionSort absLe (pyDedup paths), ?_, ?_, ?_, ?_⟩
    · exact List.sorted_insertionSort absLe (pyDedup paths)
    · exact ((List.perm_insertionSort absLe (pyDedup paths)).nodup_iff).mpr (nodup_pyDedup paths)
    · intro x
      rw [(List.perm_insertionSort absLe (pyDedup paths)).mem_iff]
      exact mem_pyDedup x paths
    · exact forall2_relStr parent _ rels (relAll_forall2 parent _ rels hrel)

/-- Witness for the amended C2 on the claim's own example. -/
theorem selector_list_amended_witness :
    (∃ qs : List PyPath,
      List.Sorted absLe qs ∧ qs.Nodup
      ∧ (∀ x, x ∈ qs ↔ x ∈ [(⟨true, ["p", "b"]⟩ : PyPath), ⟨true, ["p", "a"]⟩, ⟨true, ["p", "a"]⟩])
      ∧ List.Forall₂
          (fun q s => ∃ r, relative_to q (⟨true, ["p"]⟩ : PyPath) = some r ∧ pathStr r = s)
          qs ["a", "b"])
    ∧ fzfInput [⟨true, ["p", "b"]⟩, ⟨true, ["p", "a"]⟩, ⟨true, ["p", "a"]⟩] ⟨true, ["p"]⟩
        = Except.ok ["a", "b"] :=
  selector_list_amended [⟨true, ["p", "b"]⟩, ⟨true, ["p", "a"]⟩, ⟨true, ["p", "a"]⟩]
    ⟨true, ["p"]⟩ ["a", "b"] (by decide)

/-- Case analysis of the Selector's outcome on the fzf exit code (shared
helper). -/
theorem send_list_outcome_cases (cfg : Config) (w : World) (paths : List PyPath)
    (parent : PyPath) (lines : List String) (h : fzfInput paths parent = Except.ok lines) :
    let cmd := fzfCmd cfg parent
    let res := w.fzf cmd lines
    let selected := pyJoin parent (parsePath (pyStrip res.stdout))
    (res.returncode = 0 → w.isDir selected = true →
      send_list_of_paths_to_fzf cfg w paths parent
        = (Except.ok (some (pyResolve selected)), [Act.runFzf cmd lines]))
    ∧ (res.returncode = 0 → w.isDir selected = false →
      send_list_of_paths_to_fzf cfg w paths parent
        = (Except.error (PyErr.valueError noValidDirMsg), [Act.runFzf cmd lines]))
    ∧ (res.returncode = 130 →
      send_list_of_paths_to_fzf cfg w paths parent
        = (Except.ok none, [Act.runFzf cmd lines, Act.printed "fzf selection cancelled."]))
    ∧ (res.returncode ≠ 0 → res.returncode ≠ 130 →
      send_list_of_paths_to_fzf cfg w paths parent
        = (Except.error (PyErr.valueError noValidDirMsg),
           [Act.runFzf cmd lines,
            Act.printed ("Some unknown error occurrsed during the fzf selection. fzf exited with code:  "
              ++ toString res.returncode),
            Act.printed (" === Output: ===\n " ++ res.stdout ++ " \n === End of output ==="),
            Act.printed (" === Error: ===\n " ++ res.stderr ++ " \n === End of error ===")])) := by
  intro cmd res selected
  refine ⟨?_, ?_, ?_, ?_⟩
  · intro hrc hdir
    simp only [send_list_of_paths_to_fzf, h]
    rw [if_pos hrc, if_pos hdir]
  · intro hrc hdir
    simp only [send_list_of_paths_to_fzf, h]
    rw [if_pos hrc, if_neg (by simp [hdir])]
  · intro hrc
    simp only [send_list_of_paths_to_fzf, h]
    rw [if_neg (by rw [hrc]; decide), if_pos hrc]
  · intro hrc0 hrc130
    simp only [send_list_of_paths_to_fzf, h]
    rw [if_neg hrc0, if_neg hrc130]

/-- The claim C4 states the Selector fails exactly when the fzf exit code is 0
but the resolved selection is not an existing directory, or the exit code is
neither 0 nor 130 (with the captured stdout/stderr surfaced in the printed
diagnostics); a 0 exit with an existing directory returns its canonical
path.  The four cases characterize every outcome of the external process. -/
theorem selector_outcome (cfg : Config) (w : World) (paths : List PyPath) (parent : PyPath)
    (lines : List String) (h : fzfInput paths parent = Except.ok lines) :
    let cmd := fzfCmd cfg parent
    let res := w.fzf cmd lines
    let selected := pyJoin parent (parsePath (pyStrip res.stdout))
    (res.returncode = 0 → w.isDir selected = true →
      send_list_of_paths_to_fzf cfg w paths parent
        = (Except.ok (some (pyResolve selected)), [Act.runFzf cmd lines]))
    ∧ (res.returncode = 0 → w.isDir selected = false →
      send_list_of_paths_to_fzf cfg w paths parent
        = (Except.error (PyErr.valueError noValidDirMsg), [Act.runFzf cmd lines]))
    ∧ (res.returncode = 130 →
      send_list_of_paths_to_fzf cfg w paths parent
        = (Except.ok none, [Act.runFzf cmd lines, Act.printed "fzf selection cancelled."]))
    ∧ (res.returncode ≠ 0 → res.returncode ≠ 130 →
      send_list_of_paths_to_fzf cfg w paths parent
        = (Except.error (PyErr.valueError noValidDirMsg),
           [Act.runFzf cmd lines,
            Act.printed ("Some unknown error occurrsed during the fzf selection. fzf exited with code:  "
              ++ toString res.returncode),
            Act.printed (" === Output: ===\n " ++ res.stdout ++ " \n === End of output ==="),
            Act.printed (" === Error: ===\n " ++ res.stderr ++ " \n === End of error ===")])) :=
  send_list_outcome_cases cfg w paths parent lines h

/-- World whose fzf fails with exit code 7 and diagnostic output. -/
def w4 : World := { wW with fzf := fun _ _ => ⟨7, "out", "err"⟩ }

/-- Witness for C4: an unexpected fzf exit code (7) raises the selection
error with the captured stdout and stderr in the printed diagnostics. -/
theorem selector_outcome_witness :
    send_list_of_paths_to_fzf cfgW w4 [⟨true, ["p", "a"]⟩] ⟨true, ["p"]⟩
      = (Except.error (PyErr.valueError noValidDirMsg),
         [Act.runFzf ["fzf", "--cycle"] ["a"],
          Act.printed "Some unknown error occurrsed during the fzf selection. fzf exited with code:  7",
          Act.printed " === Output: ===\n out \n === End of output ===",
          Act.printed " === Error: ===\n err \n === End of error ==="]) := by
  have h := selector_outcome cfgW w4 [⟨true, ["p", "a"]⟩] ⟨true, ["p"]⟩ ["a"] (by decide)
  have h4 := h.2.2.2 (by decide) (by decide)
  simpa using h4

/-- The claim C6 states that when the activation probe fires (here: a
directory whose only marker is `pyproject.toml`), every pane of windows 1-3
receives the activation command first — pane 1.1 chained with " && " before
its primary `nvim .` command — and that with no marker present only the
plain `nvim .` keystroke is sent. -/
theorem activation_keystrokes (fs : String → PathInfo) (name : String) (path : PyPath) :
    ((fs (pathStr path)).isDir = true →
     (fs (pjoin (pathStr path) "shell.nix")).isFile = false →
     (fs (pjoin (pathStr path) "pyproject.toml")).isFile = true →
     sendKeysOf (standard_tmux_session fs name path)
       = [(name ++ ":1.1", "poetry shell && nvim ."), (name ++ ":2.1", "poetry shell"),
          (name ++ ":2.2", "poetry shell"), (name ++ ":3.1", "poetry shell")])
    ∧ ((fs (pathStr path)).isDir = true →
       (fs (pjoin (pathStr path) "shell.nix")).isFile = false →
       (fs (pjoin (pathStr path) "pyproject.toml")).isFile = false →
       (fs (pjoin (pathStr path) ".venv")).isDir = false →
       sendKeysOf (standard_tmux_session fs name path) = [(name ++ ":1.1", "nvim .")]) := by
  constructor
  · intro h1 h2 h3
    simp only [standard_tmux_session, detect_env_activation, h1, h2, h3]
    simp [sessionKeys, sendKeysOf, pyJoinStr]
    refine ⟨?_, ?_, ?_, ?_⟩ <;>
      · rw [String.append_assoc]
        exact congrArg (fun t => name ++ t) (by decide)
  · intro h1 h2 h3 h4
    simp only [standard_tmux_session, detect_env_activation, h1, h2, h3, h4]
    simp [sessionKeys, sendKeysOf, pyJoinStr]
    rw [String.append_assoc]
    exact congrArg (fun t => name ++ t) (by decide)

/-- Filesystem for the C6 witness: `/home/proj` is a directory whose only
activation marker is `pyproject.toml`. -/
def fsPyproject : String → PathInfo := fun s =>
  if s = "/home/proj/pyproject.toml" then ⟨false, true⟩ else ⟨true, false⟩

/-- Filesystem for the C6 witness: `/home/proj` is a directory with none of
the recognized activation markers. -/
def fsNoMarker : String → PathInfo := fun s =>
  if s = "/home/proj" then ⟨true, false⟩ else ⟨false, false⟩

/-- Witness for C6 at `/home/proj`: with only `pyproject.toml` present the
activation command prefixes every pane of windows 1-3, and with no marker
only the editor keystroke is sent. -/
theorem activation_keystrokes_witness :
    sendKeysOf (standard_tmux_session fsPyproject "proj" ⟨true, ["home", "proj"]⟩)
      = [("proj" ++ ":1.1", "poetry shell && nvim ."), ("proj" ++ ":2.1", "poetry shell"),
         ("proj" ++ ":2.2", "poetry shell"), ("proj" ++ ":3.1", "poetry shell")]
    ∧ sendKeysOf (standard_tmux_session fsNoMarker "proj" ⟨true, ["home", "proj"]⟩)
      = [("proj" ++ ":1.1", "nvim .")] :=
  ⟨(activation_keystrokes fsPyproject "proj" ⟨true, ["home", "proj"]⟩).1
      (by decide) (by decide) (by decide),
   (activation_keystrokes fsNoMarker "proj" ⟨true, ["home", "proj"]⟩).2
      (by decide) (by decide) (by decide) (by decide)⟩

/-- The claim C7 states that an fzf exit code of 130 (user cancellation) makes
the selector return `None` and the run end with exit status 1 as a normal
outcome, performing no registry lookup (`tmux ls`), no launch (checked tmux
command) and no attach. -/
theorem cancellation_clean_exit (cfg : Config) (w : World) (parent : PyPath)
    (lines : List String)
    (h1 : w.isDir parent = true)
    (h2 : projectPaths cfg w parent ≠ [])
    (h3 : fzfInput (projectPaths cfg w parent) parent = Except.ok lines)
    (h4 : (w.fzf (fzfCmd cfg parent) lines).returncode = 130) :
    main_discovery cfg w parent
      = (Except.ok 1,
         [Act.runFzf (fzfCmd cfg parent) lines,
          Act.printed "fzf selection cancelled.",
          Act.printed "No directory selected. Exiting."])
    ∧ ∀ a ∈ (main_discovery cfg w parent).2,
        a ≠ Act.runTmuxLs ∧ (∀ c, a ≠ Act.runChecked c) ∧ (∀ c, a ≠ Act.runCmd c) := by
  have hsend := (send_list_outcome_cases cfg w (projectPaths cfg w parent) parent lines h3).2.2.1 h4
  have hmain : main_discovery cfg w parent
      = (Except.ok 1,
         [Act.runFzf (fzfCmd cfg parent) lines,
          Act.printed "fzf selection cancelled.",
          Act.printed "No directory selected. Exiting."]) := by
    simp only [main_discovery]
    rw [if_neg (by simp [h1]), if_neg h2, hsend]
    simp
  refine ⟨hmain, ?_⟩
  intro a ha
  rw [hmain] at ha
  simp only [List.mem_cons, List.mem_singleton, List.not_mem_nil] at ha
  rcases ha with rfl | rfl | rfl | ha
  · exact ⟨by simp, fun c => by simp, fun c => by simp⟩
  · exact ⟨by simp, fun c => by simp, fun c => by simp⟩
  · exact ⟨by simp, fun c => by simp, fun c => by simp⟩
  · exact absurd ha (by simp)

/-- Witness for C7: with the cancelling fzf of `wW` over `treeW`, discovery
ends with exit status 1, no tmux command run. -/
theorem cancellation_clean_exit_witness :
    main_discovery cfgW wW ⟨true, ["home"]⟩
      = (Except.ok 1,
         [Act.runFzf (fzfCmd cfgW ⟨true, ["home"]⟩)
            [".", ".cfg", "link", "proj", "proj/sub", "repo"],
          Act.printed "fzf selection cancelled.",
          Act.printed "No directory selected. Exiting."])
    ∧ ∀ a ∈ (main_discovery cfgW wW ⟨true, ["home"]⟩).2,
        a ≠ Act.runTmuxLs ∧ (∀ c, a ≠ Act.runChecked c) ∧ (∀ c, a ≠ Act.runCmd c) :=
  cancellation_clean_exit cfgW wW ⟨true, ["home"]⟩
    [".", ".cfg", "link", "proj", "proj/sub", "repo"]
    (by decide) (by decide) (by decide) (by decide)

/-- The tmux command the Attacher issues for a session name. -/
def attachCmd (insideTmux : Bool) (session_name : String) : List String :=
  if insideTmux then ["tmux", "switch-client", "-t", session_name]
  else ["tmux", "attach-session", "-t", session_name]

/-- The Attacher issues exactly one (unchecked) tmux command. -/
theorem attach_eq_attachCmd (b : Bool) (n : String) :
    attach_to_tmux_session b n = [Act.runCmd (attachCmd b n)] := by
  cases b <;> rfl

/-- The claim C10 states that with no matching session in the registry the
new session is created under (and then attached by) exactly the base name of
the resolved directory: the first tmux command after the registry query is
`tmux new-session -d -s <basename> -c <path>`, and on success the run ends by
attaching to that same base name. -/
theorem new_session_uses_basename (cfg : Config) (w : World) (selected : PyPath)
    (h1 : w.isDir selected = true)
    (h2 : find_tmux_session_by_path w.tmuxLs selected = none) :
    ∃ rest,
      (find_session_or_start_then_attach cfg w selected).2
        = Act.runTmuxLs :: Act.runChecked (newSessionCmd (pyName selected) selected) :: rest
      ∧ ((find_session_or_start_then_attach cfg w selected).1 = Except.ok 0 →
          (find_session_or_start_then_attach cfg w selected).2.getLast?
            = some (Act.runCmd (attachCmd w.insideTmux (pyName selected)))) := by
  have hbranch : find_session_or_start_then_attach cfg w selected
      = launchBranch cfg w selected := by
    simp only [find_session_or_start_then_attach]
    rw [if_neg (by simp [h1]), h2]
  rw [hbranch]
  by_cases hexec : w.exec (newSessionCmd (pyName selected) selected) = 0
  · rcases hra : (runAll w.exec (cfg.tmux_session_factory (pyName selected) selected)).1 with c | u
    ·
      refine ⟨(runAll w.exec (cfg.tmux_session_factory (pyName selected) selected)).2.map
          Act.runChecked, ?_, ?_⟩
      · simp only [launchBranch, start_standard_tmux_session, if_pos hexec, hra]
        simp
      · intro hok
        simp only [launchBranch, start_standard_tmux_session, if_pos hexec, hra] at hok
        simp at hok
    ·
      refine ⟨(runAll w.exec (cfg.tmux_session_factory (pyName selected) selected)).2.map
          Act.runChecked ++ [Act.runCmd (attachCmd w.insideTmux (pyName selected))], ?_, ?_⟩
      · simp only [launchBranch, start_standard_tmux_session, if_pos hexec, hra,
          attach_eq_attachCmd]
        simp
      · intro _
        simp only [launchBranch, start_standard_tmux_session, if_pos hexec, hra,
          attach_eq_attachCmd]
        exact List.getLast?_concat _
  · refine ⟨[], ?_, ?_⟩
    · simp only [launchBranch, start_standard_tmux_session, if_neg hexec]
      simp
    · intro hok
      simp only [launchBranch, start_standard_tmux_session, if_neg hexec] at hok
      simp at hok

/-- Witness for C10: in the world `wW` (no tmux server) a selection of
`/home/proj` creates and attaches the session `proj`. -/
theorem new_session_uses_basename_witness :
    ∃ rest,
      (find_session_or_start_then_attach cfgW wW ⟨true, ["home", "proj"]⟩).2
        = Act.runTmuxLs
          :: Act.runChecked (newSessionCmd (pyName ⟨true, ["home", "proj"]⟩)
               ⟨true, ["home", "proj"]⟩) :: rest
      ∧ ((find_session_or_start_then_attach cfgW wW ⟨true, ["home", "proj"]⟩).1 = Except.ok 0 →
          (find_session_or_start_then_attach cfgW wW ⟨true, ["home", "proj"]⟩).2.getLast?
            = some (Act.runCmd (attachCmd wW.insideTmux (pyName ⟨true, ["home", "proj"]⟩)))) :=
  new_session_uses_basename cfgW wW ⟨true, ["home", "proj"]⟩ (by decide) (by decide)
